import Mathlib

/-!
Verification development for the `spy-status` plugin (src/spy-status.js).

The source file holds two revisions of the plugin separated by a document
marker; the first revision (with the today-stats feature, lines 1-579) is
the complete/later one and is the one embedded here, matching the line
numbers cited by the claims.

JavaScript strings are sequences of UTF-16 code units and the relevant
regular expressions (`/^[�\s\uD800-\uDFFF]+/`,
`/^[�🎵🎶🎶🎵]/`) operate on code units, not code
points.  A string is therefore modelled as `List Nat` of UTF-16 code units;
`utf16` converts a Lean string literal to that representation (splitting
astral code points into surrogate pairs exactly as JavaScript stores them).

Timestamps are modelled as integer epoch milliseconds.  `Date.now()` is
passed in explicitly as a `now` parameter, and the wall-clock rendering
`fmtTime` (whose output depends on the host time zone) is passed in as an
opaque rendering function `ft`; no claim depends on its output.
-/

namespace Spy

/-- UTF-16 code units of a Lean string literal: BMP scalars map to one unit,
astral scalars to a surrogate pair, exactly as a JavaScript string stores
them. -/
def utf16 (s : String) : List Nat :=
  s.data.flatMap fun c =>
    let n := c.toNat
    if n < 0x10000 then [n]
    else [0xD800 + (n - 0x10000) / 0x400, 0xDC00 + (n - 0x10000) % 0x400]

/-- The code units matched by JavaScript `\s` (and removed by
`String.prototype.trim`): ASCII whitespace, NBSP, BOM, Unicode space
separators and line separators. -/
def isWsCU (c : Nat) : Bool :=
  c = 9 || c = 10 || c = 11 || c = 12 || c = 13 || c = 32 ||
  c = 0xA0 || c = 0x1680 || (0x2000 ≤ c && c ≤ 0x200A) ||
  c = 0x2028 || c = 0x2029 || c = 0x202F || c = 0x205F || c = 0x3000 || c = 0xFEFF

/-- JavaScript `String.prototype.trim`. -/
def trimList (s : List Nat) : List Nat :=
  ((s.dropWhile isWsCU).reverse.dropWhile isWsCU).reverse

/-- The separator `" - "` used throughout the plugin. -/
def sepL : List Nat := [32, 45, 32]

/-- JavaScript `s.indexOf(' - ')` (position of the first occurrence, `none`
for `-1`). -/
def idxOfSep : List Nat → Option Nat
  | [] => none
  | c :: rest =>
    if (c :: rest).take 3 = sepL then some 0
    else (idxOfSep rest).map (· + 1)

/-- Worker for `splitSep`: scan for the next `" - "` (`[32, 45, 32]`),
accumulating the current segment in reverse. -/
def splitSepAux : List Nat → List Nat → List (List Nat)
  | 32 :: 45 :: 32 :: rest, acc => acc.reverse :: splitSepAux rest []
  | c :: rest, acc => splitSepAux rest (c :: acc)
  | [], acc => [acc.reverse]

/-- JavaScript `s.split(' - ')`: leftmost non-overlapping occurrences. -/
def splitSep (s : List Nat) : List (List Nat) := splitSepAux s []

/-- JavaScript `x || d` for a string `x` and non-empty default `d`. -/
def dflt (d s : List Nat) : List Nat := if s = [] then d else s

/-- JavaScript `a || b` for two strings. -/
def orL (a b : List Nat) : List Nat := if a = [] then b else a

/-- One activity record as consumed by the plugin: `{ machine, window_title,
app, access_time }`.  Absent (`undefined`/`null`) string fields are `none`;
`access_time` is epoch milliseconds (`new Date(v).getTime()` is folded into
the stored value). -/
structure Ev where
  machine : List Nat
  window_title : Option (List Nat)
  app : Option (List Nat)
  access_time : Option Int
deriving DecidableEq, Repr

/-- Source `NOISE_APPS` (line 40, first revision). -/
def NOISE_APPS : List (List Nat) :=
  [utf16 "生物识别", utf16 "系统 UI", utf16 "Android 系统", utf16 "系统界面",
   utf16 "系统桌面", utf16 "搜狗输入法小米版", utf16 "指纹UI",
   utf16 "One UI 主屏幕", utf16 "安全服务"]

/-- Source `SCREEN_OFF_APPS` (line 42, first revision). -/
def SCREEN_OFF_APPS : List (List Nat) :=
  [utf16 "生物识别", utf16 "系统 UI", utf16 "Android 系统", utf16 "系统桌面",
   utf16 "指纹UI", utf16 "One UI 主屏幕"]

/-- Source `PC_STALE_MS = 4 * 60 * 60 * 1000` (line 44). -/
def PC_STALE_MS : Int := 4 * 60 * 60 * 1000

/-- Source `RAINCORE_ZHIBA_KEYWORD` (line 46). -/
def RAINCORE_ZHIBA_KEYWORD : List Nat := utf16 "范式：起源"

/-- Source `HIDE_PC_NAMES` (line 48). -/
def HIDE_PC_NAMES : List (List Nat) := [utf16 "音落", utf16 "夜合"]

/-- ASCII lowering; `String.prototype.toLowerCase` restricted to the ASCII
range, which is all the `isPhoneDevice` keywords need (the regex also
carries the `i` flag, making the case of non-ASCII characters irrelevant). -/
def toLowerCU (c : Nat) : Nat := if 65 ≤ c ∧ c ≤ 90 then c + 32 else c

/-- Source `isPhoneDevice` (lines 116-120): falsy machine is not a phone, otherwise
test `/phone|android|mobile|iq13|iqoo/i` on the lowered identifier. -/
def isPhoneDevice (machine : List Nat) : Bool :=
  if machine = [] then false
  else
    let m := machine.map toLowerCU
    decide (utf16 "phone" <:+: m) || decide (utf16 "android" <:+: m) ||
    decide (utf16 "mobile" <:+: m) || decide (utf16 "iq13" <:+: m) ||
    decide (utf16 "iqoo" <:+: m)

/-- Source `getAppNameFromEvent` (lines 122-136): first `" - "` segment of the
trimmed `window_title`, else of the trimmed `app`, else `''`.  (In the
source `split(' - ')[0]` is never `null`, so the `first != null` guards are
always taken.) -/
def getAppNameFromEvent (ev : Option Ev) : List Nat :=
  match ev with
  | none => []
  | some e =>
    let wt := trimList (e.window_title.getD [])
    if wt ≠ [] then trimList ((splitSep wt).headD [])
    else
      let app := trimList (e.app.getD [])
      if app ≠ [] then trimList ((splitSep app).headD [])
      else []

/-- Source `getDisplayAppNameForPhone` (lines 138-144). -/
def getDisplayAppNameForPhone (ev : Option Ev) : List Nat :=
  match ev with
  | none => utf16 "-"
  | some e =>
    let raw := trimList (orL (e.window_title.getD []) (e.app.getD []))
    let first := (splitSep raw).headD []
    if trimList first ≠ [] then trimList first else utf16 "-"

/-- The code-unit class of `/^[�\s\uD800-\uDFFF]+/` (line 188): the
replacement character, whitespace, and any UTF-16 surrogate code unit
(paired or not — the regex has no `u` flag). -/
def isLeadNoiseCU (c : Nat) : Bool :=
  c = 0xFFFD || isWsCU c || (0xD800 ≤ c && c ≤ 0xDFFF)

/-- Source `trimLeadingNoise` (lines 185-189): drop the leading run of noise code
units, then trim. -/
def trimLeadingNoise (s : List Nat) : List Nat :=
  if s = [] then s
  else trimList (s.dropWhile isLeadNoiseCU)

/-- Source `parseMusicWindowTitle` (lines 191-204).  The character class of
`/^[�🎵🎶🎶🎵]/` (no `u` flag) is the code-unit set
`{U+FFFD, U+D83C, U+DFB5, U+DFB6}` — `🎶`/`🎵` each contribute their two
surrogate halves; the two `startsWith` clauses are kept as in the source. -/
def parseMusicWindowTitle (fullTitle : List Nat) : Option (List Nat × List Nat) :=
  if fullTitle = [] then none
  else
    let raw := trimList fullTitle
    let isMusic :=
      (match raw.head? with
       | some c => c = 0xFFFD || c = 0xD83C || c = 0xDFB5 || c = 0xDFB6
       | none => false)
      || raw.take 2 = utf16 "🎶" || raw.take 2 = utf16 "🎵"
    if isMusic then
      let rest := trimLeadingNoise raw
      match idxOfSep rest with
      | none => some (dflt (utf16 "未知") (trimLeadingNoise rest),
                      dflt [] (trimLeadingNoise rest))
      | some idx => some (dflt (utf16 "未知") (trimLeadingNoise (rest.take idx)),
                          dflt [] (trimLeadingNoise (rest.drop (idx + 3))))
    else none

/-- Source expression `fullTitle.split(' - ').map((p) => p.trim()).filter(Boolean)`
(line 152). -/
def browserParts (fullTitle : List Nat) : List (List Nat) :=
  ((splitSep fullTitle).map trimList).filter (fun p => p ≠ [])

/-- Source `parseBrowserStyleTitle` (lines 150-157): split on `" - "`, trim each
segment, drop the empty ones; with fewer than two segments the title is not
browser-style, otherwise the last segment is the app and the rest rejoined
with `" - "` is the window title. -/
def parseBrowserStyleTitle (fullTitle : List Nat) : Option (List Nat × List Nat) :=
  if fullTitle = [] then none
  else
    let parts := browserParts fullTitle
    if parts.length < 2 then none
    else some (parts.getLastD [], List.intercalate sepL parts.dropLast)

/-- Source `getAppNameForStats` (lines 160-173). -/
def getAppNameForStats (ev : Option Ev) (isPhone : Bool) : List Nat :=
  match ev with
  | none => utf16 "未知"
  | some e =>
    let raw := trimList (orL (e.window_title.getD []) (e.app.getD []))
    match parseMusicWindowTitle raw with
    | some m => dflt (utf16 "未知") (trimLeadingNoise m.1)
    | none =>
      if isPhone then
        let app := trimList ((splitSep raw).headD [])
        dflt (utf16 "未知") (trimLeadingNoise app)
      else
        match parseBrowserStyleTitle raw with
        | some b => dflt (utf16 "未知") (trimList b.1)
        | none => dflt (utf16 "未知") (trimList ((splitSep raw).headD []))

/-- Source `isNoiseApp` (lines 206-209): exact match of the trimmed name against
`NOISE_APPS`. -/
def isNoiseApp (appName : List Nat) : Bool :=
  NOISE_APPS.any (fun a => trimList appName = a)

/-- Source `isScreenOffApp` (lines 211-214). -/
def isScreenOffApp (appName : List Nat) : Bool :=
  SCREEN_OFF_APPS.any (fun a => trimList appName = a)

/-- Source `isPcStale` (lines 216-221): no data, or last update older than
`maxAgeMs` (a falsy `access_time` counts as epoch 0). -/
def isPcStale (pcData : Option Ev) (now : Int) (maxAgeMs : Int) : Bool :=
  match pcData with
  | none => true
  | some e => decide (now - e.access_time.getD 0 > maxAgeMs)

/-- Source `isAsleepCondition` (lines 223-229). -/
def isAsleepCondition (phoneData pcData : Option Ev) (now : Int) : Bool :=
  match phoneData with
  | none => false
  | some _ =>
    if !(isScreenOffApp (getAppNameFromEvent phoneData)) then false
    else isPcStale pcData now PC_STALE_MS

/-- Source `eventContainsKeyword` (lines 231-237); the JavaScript null checks on
`ev` and `keyword` are the `none`/`[]` cases. -/
def eventContainsKeyword (ev : Option Ev) (keyword : List Nat) : Bool :=
  match ev with
  | none => false
  | some e =>
    if keyword = [] then false
    else decide (keyword <:+: e.window_title.getD []) ||
         decide (keyword <:+: e.app.getD [])

/-- The three-way classification a desktop title receives in
`formatPersonBlock` (lines 284-297): music first, then browser-style, then
plain (first segment, `'未知'` when empty). -/
inductive TitleClass where
  | music (app song : List Nat)
  | browser (app pageTitle : List Nat)
  | plain (app : List Nat)
deriving DecidableEq, Repr

/-- Desktop title classification order of `formatPersonBlock`
(lines 284-297). -/
def classifyPcTitle (t : List Nat) : TitleClass :=
  match parseMusicWindowTitle t with
  | some m => .music m.1 m.2
  | none =>
    match parseBrowserStyleTitle t with
    | some b => .browser b.1 b.2
    | none => .plain (dflt (utf16 "未知") ((splitSep t).headD []))

/-- Newline, for `Array.prototype.join('\n')`. -/
def nl : List Nat := [10]

/-- JavaScript `xs.join('\n')`. -/
def joinNl : List (List Nat) → List Nat
  | [] => []
  | [x] => x
  | x :: xs => x ++ nl ++ joinNl xs

/-- Source `formatPersonBlock` (lines 245-308).  `ft` stands in for `fmtTime`
(lines 239-243), whose output depends on the host time zone and is opaque to
every claim. -/
def formatPersonBlock (name : List Nat) (phoneData pcData : Option Ev)
    (hidePc : Bool) (ft : Ev → List Nat) : List Nat :=
  let phoneBlock :=
    match phoneData with
    | none => joinNl [utf16 "====== 手机状态 ======", utf16 "  暂无数据", []]
    | some pd =>
      let appName := getAppNameFromEvent (some pd)
      if isNoiseApp appName then
        let text := if isScreenOffApp appName then utf16 "熄屏" else utf16 "暂无数据"
        joinNl [utf16 "====== 手机状态 ======", utf16 "  " ++ text,
                utf16 "来自：" ++ name ++ utf16 " の 手机", []]
      else
        let rawTitle := trimList (orL (pd.window_title.getD []) (pd.app.getD []))
        let content :=
          match parseMusicWindowTitle rawTitle with
          | some m => utf16 "🎵正在听：" ++ m.2 ++ nl ++ utf16 "▶应用：" ++ m.1
          | none =>
            let app := getDisplayAppNameForPhone (some pd)
            if app = utf16 "游戏助推器" then
              utf16 "在打游戏，但是采集不到在打什么神秘游戏"
            else utf16 "▶应用：" ++ app
        joinNl [utf16 "====== 手机状态 ======", content,
                utf16 "更新时间：" ++ ft pd,
                utf16 "来自：" ++ name ++ utf16 " の 手机", []]
  if hidePc then phoneBlock
  else
    let pcBlock :=
      match pcData with
      | none => joinNl [utf16 "====== 电脑状态 ======", utf16 "  暂无数据",
                        utf16 "来自：" ++ name ++ utf16 " の PC"]
      | some pc =>
        let fullWindowTitle := dflt (utf16 "未知窗口") (pc.window_title.getD [])
        let pcContent :=
          match parseMusicWindowTitle fullWindowTitle with
          | some m => utf16 "🎵正在听：" ++ m.2 ++ nl ++ utf16 "▶应用：" ++ m.1
          | none =>
            match parseBrowserStyleTitle fullWindowTitle with
            | some b => utf16 "▶应用：" ++ b.1 ++ nl ++ utf16 "▶窗口标题：" ++ b.2
            | none =>
              let appName := dflt (utf16 "未知") ((splitSep fullWindowTitle).headD [])
              utf16 "▶应用：" ++ appName ++ nl ++ utf16 "▶窗口标题：" ++ fullWindowTitle
        joinNl [utf16 "====== 电脑状态 ======",
                utf16 "💻" ++ name ++ utf16 "的电脑正在运行：", pcContent,
                utf16 "更新时间：" ++ ft pc,
                utf16 "来自：" ++ name ++ utf16 " の PC"]
    phoneBlock ++ nl ++ pcBlock

/-- Source `formatPimengMessage` (lines 334-402). -/
def formatPimengMessage (phoneData pcData : Option Ev) (ft : Ev → List Nat) : List Nat :=
  let phoneBlock :=
    match phoneData with
    | none => joinNl [utf16 "====== 手机状态 ======", utf16 "  暂无数据", []]
    | some pd =>
      let appNamePimeng := getAppNameFromEvent (some pd)
      if isNoiseApp appNamePimeng then
        let text := if isScreenOffApp appNamePimeng then utf16 "熄屏" else utf16 "暂无数据"
        joinNl [utf16 "====== 手机状态 ======", utf16 "  " ++ text,
                utf16 "来自：皮梦 の iQOO13", []]
      else
        let wt := pd.window_title.getD []
        match parseMusicWindowTitle wt with
        | some m =>
          joinNl [utf16 "====== 手机状态 ======", utf16 "🎵皮梦正在听音乐：",
                  utf16 "▶曲目：" ++ m.2 ++ nl ++ utf16 "▶用" ++ m.1 ++ utf16 "听的",
                  utf16 "更新时间：" ++ ft pd, utf16 "来自：皮梦 の iQOO13", []]
        | none =>
          let appName := (splitSep wt).headD []
          let phoneContent :=
            if appName = utf16 "三角洲行动" then utf16 "得吃"
            else if appName ∈ [utf16 "交互池", utf16 "系统桌面", utf16 "系统界面组件"] then
              utf16 "神秘应用（采集不准确）「" ++ appName ++ utf16 "」"
            else if appName = utf16 "游戏魔盒" then
              utf16 "在打游戏，但是采集不到在打什么神秘游戏"
            else if appName = utf16 "PiliPlus" then utf16 "哔哩哔哩（第三方客户端）"
            else utf16 "▶应用：" ++ dflt (utf16 "未知应用") appName
          joinNl [utf16 "====== 手机状态 ======", utf16 "♿️皮梦正在", phoneContent,
                  utf16 "更新时间：" ++ ft pd, utf16 "来自：皮梦 の iQOO13", []]
  let pcBlock :=
    match pcData with
    | none => joinNl [utf16 "====== 电脑状态 ======", utf16 "  暂无数据",
                      utf16 "来自：皮梦 の PC"]
    | some pc =>
      let fullWindowTitle := dflt (utf16 "未知窗口") (pc.window_title.getD [])
      let pcContent :=
        match parseMusicWindowTitle fullWindowTitle with
        | some m => utf16 "🎵正在听：" ++ m.2 ++ nl ++ utf16 "▶应用：" ++ m.1
        | none =>
          match parseBrowserStyleTitle fullWindowTitle with
          | some b => utf16 "▶应用：" ++ b.1 ++ nl ++ utf16 "▶窗口标题：" ++ b.2
          | none =>
            let first := dflt (utf16 "未知") ((splitSep fullWindowTitle).headD [])
            utf16 "▶应用：" ++ first ++ nl ++ utf16 "▶窗口标题：" ++ fullWindowTitle
      joinNl [utf16 "====== 电脑状态 ======", utf16 "💻皮梦的电脑正在运行：", pcContent,
              utf16 "更新时间：" ++ ft pc, utf16 "来自：皮梦 の PC"]
  phoneBlock ++ nl ++ pcBlock

/-- Source `PIMENG_PHONE_MACHINE` / `PIMENG_PC_MACHINE` (lines 37-38). -/
def PIMENG_PHONE_MACHINE : List Nat := utf16 "pimeng-iq13"

def PIMENG_PC_MACHINE : List Nat := utf16 "pimeng-pc"

/-- The advisory line appended at line 329. -/
def zhibaSuffix : List Nat := utf16 "\n雨核在推制霸呢...不要打扰他"

/-- Source expression `events.find((e) => this.isPhoneDevice(e.machine))` (line 322). -/
def currentPhoneEvent (events : List Ev) : Option Ev :=
  events.find? (fun e => isPhoneDevice e.machine)

/-- Source expression `events.find((e) => !this.isPhoneDevice(e.machine))` guarded by
`HIDE_PC_NAMES` (line 323). -/
def currentPcEvent (name : List Nat) (events : List Ev) : Option Ev :=
  if name ∈ HIDE_PC_NAMES then none
  else events.find? (fun e => !isPhoneDevice e.machine)

/-- Source `formatMessageByPerson` (lines 310-332).  The guard
`name === '雨核' && phoneData && eventContainsKeyword(...)` is folded into
`eventContainsKeyword`, which is `false` on `none` exactly as the source's
null check. -/
def formatMessageByPerson (name : List Nat) (events : List Ev) (now : Int)
    (ft : Ev → List Nat) : List Nat :=
  if events = [] then utf16 "【" ++ name ++ utf16 "】\n  暂无记录\n"
  else if name = utf16 "皮梦" then
    let phoneData := events.find? (fun e => e.machine = PIMENG_PHONE_MACHINE)
    let pcData := events.find? (fun e => e.machine = PIMENG_PC_MACHINE)
    if isAsleepCondition phoneData pcData now then
      utf16 "【" ++ name ++ utf16 "】\n  " ++ name ++ utf16 "好像睡着了呢\n"
    else formatPimengMessage phoneData pcData ft
  else
    let phoneData := currentPhoneEvent events
    let pcData := currentPcEvent name events
    if isAsleepCondition phoneData pcData now then
      utf16 "【" ++ name ++ utf16 "】\n  " ++ name ++ utf16 "好像睡着了呢\n"
    else
      let msg := utf16 "【" ++ name ++ utf16 "】\n" ++
        formatPersonBlock name phoneData pcData (name ∈ HIDE_PC_NAMES) ft
      if name = utf16 "雨核" ∧ eventContainsKeyword phoneData RAINCORE_ZHIBA_KEYWORD = true
      then msg ++ zhibaSuffix
      else msg

/-- One rendered line of the today-stats reply (lines 482-486): the
`▶${deviceLabel}` header or one ranked bucket line.  The seconds and the
percentage are kept as numbers; `formatDuration`/`toFixed` only change their
decimal presentation. -/
inductive StatLine where
  | deviceHeader (label : List Nat)
  | bucketLine (rank : Nat) (app : List Nat) (seconds : Nat) (pct : ℚ)
deriving DecidableEq, Repr

/-- The grouping keys of `buildDeviceBlock`'s `byApp` map (lines 474-478). -/
def statsKeys (evs : List Ev) (isPhone : Bool) : List (List Nat) :=
  evs.map (fun e => getAppNameForStats (some e) isPhone)

/-- Distinct keys in first-occurrence order (JavaScript object insertion
order). -/
def uniqueKeys (keys : List (List Nat)) : List (List Nat) :=
  keys.foldl (fun acc k => if k ∈ acc then acc else acc ++ [k]) []

/-- Source expression `Object.entries(byApp)` with the heartbeat counts (lines 474-480). -/
def appCounts (keys : List (List Nat)) : List (List Nat × Nat) :=
  (uniqueKeys keys).map (fun k => (k, keys.count k))

/-- Insertion step of the descending-by-seconds sort
(`.sort((a, b) => b.seconds - a.seconds)`, line 481); stable, like the
JavaScript sort. -/
def insertDesc (x : List Nat × Nat) : List (List Nat × Nat) → List (List Nat × Nat)
  | [] => [x]
  | y :: ys => if y.2 < x.2 then x :: y :: ys else y :: insertDesc x ys

def sortDesc : List (List Nat × Nat) → List (List Nat × Nat)
  | [] => []
  | x :: xs => insertDesc x (sortDesc xs)

structure DeviceBlock where
  lines : List StatLine
  coveredSeconds : Nat
  percentToNow : ℚ
deriving Repr

/-- Source `buildDeviceBlock` (lines 470-488).  Counts are sorted descending by
seconds, each rendered line carries `count * hb` seconds and
`seconds / coveredSeconds * 100` percent (`0` when `coveredSeconds` is 0);
the empty event list short-circuits to no lines, 0 covered seconds and a 0
percentage. -/
def buildDeviceBlock (deviceEvents : List Ev) (deviceLabel : List Nat)
    (isPhone : Bool) (hb : Nat) (elapsedSeconds : Nat) : DeviceBlock :=
  if deviceEvents = [] then ⟨[], 0, 0⟩
  else
    let coveredSeconds := deviceEvents.length * hb
    let keys := statsKeys deviceEvents isPhone
    let sorted := sortDesc (appCounts keys)
    let lines := StatLine.deviceHeader deviceLabel ::
      sorted.enum.map (fun p =>
        let seconds := p.2.2 * hb
        let pct : ℚ :=
          if 0 < coveredSeconds then (seconds : ℚ) / (coveredSeconds : ℚ) * 100 else 0
        StatLine.bucketLine (p.1 + 1) p.2.1 seconds pct)
    ⟨lines, coveredSeconds, min 100 ((coveredSeconds : ℚ) / (elapsedSeconds : ℚ) * 100)⟩

/-- Source expression `todayEvents.filter((e) => this.isPhoneDevice(e.machine))` (line 467). -/
def phoneEventsOf (todayEvents : List Ev) : List Ev :=
  todayEvents.filter (fun e => isPhoneDevice e.machine)

/-- Line 468: desktop events, empty for `HIDE_PC_NAMES` persons (the
`hidePc` flag abstracts `HIDE_PC_NAMES.includes(name)`). -/
def pcEventsOf (todayEvents : List Ev) (hidePc : Bool) : List Ev :=
  if hidePc then [] else todayEvents.filter (fun e => !isPhoneDevice e.machine)

/-- The ranked-list lines of the today-stats reply (lines 495-499): the
phone block's lines followed by the desktop block's lines. -/
def queryTodayLines (todayEvents : List Ev) (hidePc : Bool)
    (hb elapsedSeconds : Nat) : List StatLine :=
  (buildDeviceBlock (phoneEventsOf todayEvents) (utf16 "手机") true hb elapsedSeconds).lines ++
  (buildDeviceBlock (pcEventsOf todayEvents hidePc) (utf16 "电脑") false hb elapsedSeconds).lines

/-- Source `totalPercent` (lines 492-493). -/
def totalPercent (todayEvents : List Ev) (hidePc : Bool)
    (hb elapsedSeconds : Nat) : ℚ :=
  let totalCovered :=
    (buildDeviceBlock (phoneEventsOf todayEvents) (utf16 "手机") true hb elapsedSeconds).coveredSeconds +
    (buildDeviceBlock (pcEventsOf todayEvents hidePc) (utf16 "电脑") false hb elapsedSeconds).coveredSeconds
  min 100 ((totalCovered : ℚ) / (elapsedSeconds : ℚ) * 100)

/-- The spec's music trigger, modelled from the claim's words ("after
discarding any leading prefix of replacement characters, whitespace, and
unpaired surrogate code points, the title begins with 🎶 or 🎵"), for
comparison against `parseMusicWindowTitle`.  A high surrogate followed by a
low surrogate is a *paired* surrogate and is not discarded. -/
def specDiscardLeading : List Nat → List Nat
  | [] => []
  | c :: rest =>
    if c = 0xFFFD ∨ isWsCU c = true then specDiscardLeading rest
    else if 0xD800 ≤ c ∧ c ≤ 0xDBFF then
      match rest with
      | [] => []
      | d :: _ => if 0xDC00 ≤ d ∧ d ≤ 0xDFFF then c :: rest else specDiscardLeading rest
    else if 0xDC00 ≤ c ∧ c ≤ 0xDFFF then specDiscardLeading rest
    else c :: rest

/-- The claim's music condition: after the discard above, the title begins
with one of the two musical-note symbols. -/
def specMusicStart (t : List Nat) : Bool :=
  (specDiscardLeading t).take 2 = utf16 "🎵" || (specDiscardLeading t).take 2 = utf16 "🎶"

/-- The code-unit set of the character class in
`/^[�🎵🎶🎶🎵]/` (line 195), written without the `u`
flag: each emoji contributes its surrogate halves separately. -/
def musicStartUnits : List Nat := [0xFFFD, 0xD83C, 0xDFB5, 0xDFB6]

/-!  ## Theorems -/

/-- JavaScript `x || ''` is the identity on strings. -/
theorem dflt_nil (s : List Nat) : dflt [] s = s := by
  unfold dflt; split
  · simp_all
  · rfl

/-- C1 counterexample: a title consisting of a replacement character
followed by `"abc"` is classified Music by the code, although after
discarding the leading noise it does not begin with a musical-note symbol,
so the claim's "only if" direction fails. -/
theorem music_rule_claim_false :
    (parseMusicWindowTitle ((0xFFFD : Nat) :: utf16 "abc")).isSome = true ∧
    specMusicStart ((0xFFFD : Nat) :: utf16 "abc") = false := by decide

/-- Unfolded form of `parseMusicWindowTitle` for non-empty input. -/
theorem parseMusic_unfold (t : List Nat) (ht : t ≠ []) :
    parseMusicWindowTitle t =
      if ((match (trimList t).head? with
           | some c => c = 0xFFFD || c = 0xD83C || c = 0xDFB5 || c = 0xDFB6
           | none => false)
          || decide ((trimList t).take 2 = utf16 "🎶")
          || decide ((trimList t).take 2 = utf16 "🎵")) = true then
        match idxOfSep (trimLeadingNoise (trimList t)) with
        | none =>
            some (dflt (utf16 "未知") (trimLeadingNoise (trimLeadingNoise (trimList t))),
                  dflt [] (trimLeadingNoise (trimLeadingNoise (trimList t))))
        | some idx =>
            some (dflt (utf16 "未知") (trimLeadingNoise ((trimLeadingNoise (trimList t)).take idx)),
                  dflt [] (trimLeadingNoise ((trimLeadingNoise (trimList t)).drop (idx + 3))))
      else none := by
  simp only [parseMusicWindowTitle, if_neg ht]

theorem utf16_note1 : utf16 "🎵" = [0xD83C, 0xDFB5] := by decide

theorem utf16_note2 : utf16 "🎶" = [0xD83C, 0xDFB6] := by decide

/-- A title whose first two code units spell `🎶` or `🎵` starts with the
lead surrogate U+D83C. -/
theorem take_two_note_head {c : Nat} {cs : List Nat}
    (h : (c :: cs).take 2 = utf16 "🎶" ∨ (c :: cs).take 2 = utf16 "🎵") :
    c = 0xD83C := by
  rcases h with h | h
  · rw [utf16_note2] at h
    cases cs
    · simp at h
    · simp at h; omega
  · rw [utf16_note1] at h
    cases cs
    · simp at h
    · simp at h; omega

/-- C1 amended: the classifier returns Music iff the first UTF-16 code unit
of the trimmed title is U+FFFD, U+D83C, U+DFB5 or U+DFB6; the result's app
is the leading-noise-stripped part of the noise-stripped remainder before
the first `" - "` (defaulting to `"未知"` when empty) and the song is the
leading-noise-stripped part after it (empty when nothing follows); with no
separator both are derived from the whole remainder. -/
theorem music_rule_amended (t : List Nat) :
    ((parseMusicWindowTitle t).isSome = true ↔
      ∃ c, (trimList t).head? = some c ∧ c ∈ musicStartUnits) ∧
    (∀ app song, parseMusicWindowTitle t = some (app, song) →
      match idxOfSep (trimLeadingNoise (trimList t)) with
      | none =>
          app = dflt (utf16 "未知") (trimLeadingNoise (trimLeadingNoise (trimList t))) ∧
          song = trimLeadingNoise (trimLeadingNoise (trimList t))
      | some i =>
          app = dflt (utf16 "未知") (trimLeadingNoise ((trimLeadingNoise (trimList t)).take i)) ∧
          song = trimLeadingNoise ((trimLeadingNoise (trimList t)).drop (i + 3))) := by
  by_cases ht : t = []
  · subst ht
    have hm : parseMusicWindowTitle ([] : List Nat) = none := rfl
    constructor
    · rw [hm]; simp [trimList]
    · intro app song h; rw [hm] at h; exact absurd h (by simp)
  · have hu := parseMusic_unfold t ht
    cases hraw : trimList t with
    | nil =>
      rw [hraw] at hu
      have hm : parseMusicWindowTitle t = none := by rw [hu]; rfl
      constructor
      · rw [hm]; simp [hraw]
      · intro app song h; rw [hm] at h; exact absurd h (by simp)
    | cons c cs =>
      rw [hraw] at hu
      by_cases hc : c = 0xFFFD ∨ c = 0xD83C ∨ c = 0xDFB5 ∨ c = 0xDFB6
      · have hcond : ((match (c :: cs).head? with
             | some c => c = 0xFFFD || c = 0xD83C || c = 0xDFB5 || c = 0xDFB6
             | none => false)
            || decide ((c :: cs).take 2 = utf16 "🎶")
            || decide ((c :: cs).take 2 = utf16 "🎵")) = true := by
          rcases hc with h | h | h | h <;> subst h <;> simp
        rw [hcond, if_pos rfl] at hu
        constructor
        · constructor
          · intro _
            refine ⟨c, rfl, ?_⟩
            rcases hc with h | h | h | h <;> subst h <;> decide
          · intro _
            rw [hu]
            cases hidx : idxOfSep (trimLeadingNoise (c :: cs)) <;> simp [hidx]
        · intro app song h
          rw [hu] at h
          cases hidx : idxOfSep (trimLeadingNoise (c :: cs)) with
          | none =>
            rw [hidx] at h
            simp only [Option.some.injEq, Prod.mk.injEq] at h
            simp only [hidx]
            exact ⟨h.1.symm, by rw [← h.2]; exact dflt_nil _⟩
          | some i =>
            rw [hidx] at h
            simp only [Option.some.injEq, Prod.mk.injEq] at h
            simp only [hidx]
            exact ⟨h.1.symm, by rw [← h.2]; exact dflt_nil _⟩
      · push_neg at hc
        obtain ⟨h1, h2, h3, h4⟩ := hc
        have hcond : ((match (c :: cs).head? with
             | some c => c = 0xFFFD || c = 0xD83C || c = 0xDFB5 || c = 0xDFB6
             | none => false)
            || decide ((c :: cs).take 2 = utf16 "🎶")
            || decide ((c :: cs).take 2 = utf16 "🎵")) = false := by
          simp only [List.head?_cons, Bool.or_eq_false_iff, decide_eq_false_iff_not]
          refine ⟨⟨by simp [h1, h2, h3, h4], ?_⟩, ?_⟩
          · intro hcontra; exact h2 (take_two_note_head (Or.inl hcontra))
          · intro hcontra; exact h2 (take_two_note_head (Or.inr hcontra))
        rw [hcond, if_neg (by simp)] at hu
        have hm : parseMusicWindowTitle t = none := hu
        constructor
        · rw [hm]
          simp only [Option.isSome_none, Bool.false_eq_true, false_iff]
          rintro ⟨d, hd, hmem⟩
          simp only [List.head?_cons, Option.some.injEq] at hd
          subst hd
          simp only [musicStartUnits, List.mem_cons, List.not_mem_nil, or_false] at hmem
          rcases hmem with h | h | h | h
          exacts [h1 h, h2 h, h3 h, h4 h]
        · intro app song h
          rw [hm] at h
          exact absurd h (by simp)

theorem music_rule_amended_witness :
    (parseMusicWindowTitle (utf16 "🎵 A - B")).isSome = true :=
  (music_rule_amended (utf16 "🎵 A - B")).1.mpr ⟨0xD83C, by decide, by decide⟩

/-- C4: a title that is not music and splits into at least two non-empty
trimmed segments classifies as Browser with the last segment as app and the
preceding segments rejoined with `" - "` as page title; with fewer than two
such segments it classifies as Plain. -/
theorem browser_style_classification (t : List Nat)
    (hm : parseMusicWindowTitle t = none) :
    (2 ≤ (browserParts t).length →
      classifyPcTitle t = TitleClass.browser ((browserParts t).getLastD [])
        (List.intercalate sepL (browserParts t).dropLast)) ∧
    ((browserParts t).length < 2 →
      classifyPcTitle t = TitleClass.plain (dflt (utf16 "未知") ((splitSep t).headD []))) := by
  constructor
  · intro h2
    have ht : t ≠ [] := by
      intro he; subst he
      have : (browserParts ([] : List Nat)).length = 0 := rfl
      omega
    have hb : parseBrowserStyleTitle t =
        some ((browserParts t).getLastD [], List.intercalate sepL (browserParts t).dropLast) := by
      simp only [parseBrowserStyleTitle, if_neg ht]
      rw [if_neg (by omega)]
    simp [classifyPcTitle, hm, hb]
  · intro hlt
    by_cases ht : t = []
    · subst ht
      simp [classifyPcTitle, hm, parseBrowserStyleTitle]
    · have hb : parseBrowserStyleTitle t = none := by
        simp only [parseBrowserStyleTitle, if_neg ht]
        rw [if_pos hlt]
      simp [classifyPcTitle, hm, hb]

theorem browser_style_classification_witness :
    classifyPcTitle (utf16 "知乎 - 个人 - Microsoft Edge") =
      TitleClass.browser (utf16 "Microsoft Edge") (utf16 "知乎 - 个人") :=
  ((browser_style_classification (utf16 "知乎 - 个人 - Microsoft Edge")
    (by decide)).1 (by decide)).trans (by decide)

/-- C2: the asleep condition holds iff a phone event exists, its extracted
app name is screen-off, and the desktop event is stale — absent, or last
updated more than 14400 seconds (here in milliseconds) before `now`; in
particular it is false whenever the phone event is absent. -/
theorem asleep_condition_iff (phoneData pcData : Option Ev) (now : Int) :
    (isAsleepCondition phoneData pcData now = true ↔
      ∃ pd, phoneData = some pd ∧
        isScreenOffApp (getAppNameFromEvent (some pd)) = true ∧
        (pcData = none ∨ ∃ pe, pcData = some pe ∧
          now - pe.access_time.getD 0 > 14400 * 1000)) ∧
    (phoneData = none → isAsleepCondition phoneData pcData now = false) := by
  have hms : PC_STALE_MS = 14400 * 1000 := by decide
  cases phoneData with
  | none => simp [isAsleepCondition]
  | some pd =>
    cases pcData with
    | none => simp [isAsleepCondition, isPcStale, Bool.not_eq_true']
    | some pe =>
      simp [isAsleepCondition, isPcStale, Bool.not_eq_true', hms]

theorem asleep_condition_iff_witness :
    isAsleepCondition (some ⟨utf16 "xiaomi-phone", some (utf16 "系统 UI"), none, some 0⟩)
      none 0 = true :=
  (asleep_condition_iff
      (some ⟨utf16 "xiaomi-phone", some (utf16 "系统 UI"), none, some 0⟩) none 0).1.mpr
    ⟨⟨utf16 "xiaomi-phone", some (utf16 "系统 UI"), none, some 0⟩, rfl, by decide, Or.inl rfl⟩

/-- C3 counterexample: on the title `"🎵 好歌 - 网易云音乂"` the parser does
*not* return `app = "网易云音乂", song = "好歌"` as the claim states. -/
theorem music_example_claim_false :
    parseMusicWindowTitle (utf16 "🎵 好歌 - 网易云音乂") ≠
      some (utf16 "网易云音乂", utf16 "好歌") := by decide

/-- C3 amended: the part before the first `" - "` is the app and the part
after it is the song, so the title parses to
`app = "好歌", song = "网易云音乂"`. -/
theorem music_example_value :
    parseMusicWindowTitle (utf16 "🎵 好歌 - 网易云音乂") =
      some (utf16 "好歌", utf16 "网易云音乂") := by decide

/-- C5: every screen-off entry is classified both Noise and ScreenOff, and
every noise entry outside the screen-off subset is classified Noise but not
ScreenOff. -/
theorem screen_off_subset_noise :
    (∀ a ∈ SCREEN_OFF_APPS, isNoiseApp a = true ∧ isScreenOffApp a = true) ∧
    (∀ a ∈ NOISE_APPS, a ∉ SCREEN_OFF_APPS →
      isNoiseApp a = true ∧ isScreenOffApp a = false) := by
  decide

theorem screen_off_subset_noise_witness :
    isNoiseApp (utf16 "系统界面") = true ∧ isScreenOffApp (utf16 "系统界面") = false :=
  screen_off_subset_noise.2 (utf16 "系统界面") (by decide) (by decide)

/-- C10: all three app-name extractions read `window_title` when it is
present and non-blank, and the `app` field then has no effect on the
result. -/
theorem app_extraction_prefers_window_title
    (m : List Nat) (wt : List Nat) (a a' : Option (List Nat)) (t t' : Option Int)
    (h : trimList wt ≠ []) :
    getAppNameFromEvent (some ⟨m, some wt, a, t⟩) =
      getAppNameFromEvent (some ⟨m, some wt, a', t'⟩) ∧
    getDisplayAppNameForPhone (some ⟨m, some wt, a, t⟩) =
      getDisplayAppNameForPhone (some ⟨m, some wt, a', t'⟩) ∧
    ∀ ip : Bool, getAppNameForStats (some ⟨m, some wt, a, t⟩) ip =
      getAppNameForStats (some ⟨m, some wt, a', t'⟩) ip := by
  have hwt : wt ≠ [] := by
    intro e; exact h (by rw [e]; rfl)
  refine ⟨?_, ?_, fun ip => ?_⟩ <;>
    simp [getAppNameFromEvent, getDisplayAppNameForPhone, getAppNameForStats, orL, h, hwt]

theorem app_extraction_prefers_window_title_witness :
    getAppNameFromEvent (some ⟨utf16 "phone-1", some (utf16 "微信"), some (utf16 "A"), some 0⟩) =
      getAppNameFromEvent (some ⟨utf16 "phone-1", some (utf16 "微信"), some (utf16 "B"), some 1⟩) :=
  (app_extraction_prefers_window_title (utf16 "phone-1") (utf16 "微信")
    (some (utf16 "A")) (some (utf16 "B")) (some 0) (some 1) (by decide)).1

theorem mem_insertDesc {x y : List Nat × Nat} {l : List (List Nat × Nat)} :
    x ∈ insertDesc y l ↔ x = y ∨ x ∈ l := by
  induction l with
  | nil => simp [insertDesc]
  | cons z zs ih =>
    unfold insertDesc
    split
    · simp
    · rw [List.mem_cons, ih, List.mem_cons]
      tauto

theorem mem_sortDesc {x : List Nat × Nat} {l : List (List Nat × Nat)} :
    x ∈ sortDesc l ↔ x ∈ l := by
  induction l with
  | nil => simp [sortDesc]
  | cons z zs ih => simp [sortDesc, mem_insertDesc, ih]

/-- C7: no rendered percentage exceeds 100: every per-app bucket percentage
is at most 100, the per-device percent-to-now is at most 100, and the total
percent is capped at 100, whatever the events, heartbeat interval and
elapsed time are. -/
theorem daily_percentages_capped (deviceEvents : List Ev) (label : List Nat)
    (isPhone : Bool) (hb elapsed : Nat) (todayEvents : List Ev) (hidePc : Bool) :
    (∀ r app sec pct, StatLine.bucketLine r app sec pct ∈
        (buildDeviceBlock deviceEvents label isPhone hb elapsed).lines → pct ≤ 100) ∧
    (buildDeviceBlock deviceEvents label isPhone hb elapsed).percentToNow ≤ 100 ∧
    totalPercent todayEvents hidePc hb elapsed ≤ 100 := by
  refine ⟨?_, ?_, ?_⟩
  · intro r app sec pct hmem
    unfold buildDeviceBlock at hmem
    split at hmem
    · simp at hmem
    · simp only [List.mem_cons] at hmem
      rcases hmem with h | h
      · exact absurd h (by simp)
      · rw [List.mem_map] at h
        obtain ⟨p, hp, heq⟩ := h
        simp only [StatLine.bucketLine.injEq] at heq
        obtain ⟨-, -, -, hpct⟩ := heq
        rw [← hpct]
        split
        · rename_i hpos
          have hcnt : p.2.2 ≤ deviceEvents.length := by
            have hp2 : p.2 ∈ sortDesc (appCounts (statsKeys deviceEvents isPhone)) := by
              have hg := List.mem_enum_iff_getElem?.mp hp
              exact List.getElem?_mem hg
            rw [mem_sortDesc, appCounts] at hp2
            obtain ⟨k, hk, hkeq⟩ := List.mem_map.mp hp2
            have hc2 : p.2.2 = (statsKeys deviceEvents isPhone).count k := by
              rw [← hkeq]
            rw [hc2]
            calc (statsKeys deviceEvents isPhone).count k
                ≤ (statsKeys deviceEvents isPhone).length := List.count_le_length _ _
              _ = deviceEvents.length := List.length_map _ _
          have hle : ((p.2.2 * hb : Nat) : ℚ) ≤ ((deviceEvents.length * hb : Nat) : ℚ) := by
            exact_mod_cast Nat.mul_le_mul_right hb hcnt
          have hposq : (0 : ℚ) < ((deviceEvents.length * hb : Nat) : ℚ) := by
            exact_mod_cast hpos
          have hdiv : ((p.2.2 * hb : Nat) : ℚ) / ((deviceEvents.length * hb : Nat) : ℚ) ≤ 1 :=
            div_le_one_of_le₀ hle (le_of_lt hposq)
          calc ((p.2.2 * hb : Nat) : ℚ) / ((deviceEvents.length * hb : Nat) : ℚ) * 100
              ≤ 1 * 100 := by
                exact mul_le_mul_of_nonneg_right hdiv (by norm_num)
            _ = 100 := by norm_num
        · norm_num
  · unfold buildDeviceBlock
    split
    · show (0 : ℚ) ≤ 100
      norm_num
    · exact min_le_left _ _
  · unfold totalPercent
    exact min_le_left _ _

theorem daily_percentages_capped_witness :
    StatLine.bucketLine 1 (utf16 "微信") 60 100 ∈
      (buildDeviceBlock [⟨utf16 "phone-1", some (utf16 "微信"), none, some 0⟩]
        (utf16 "手机") true 60 3600).lines ∧
    (100 : ℚ) ≤ 100 := by
  have hlines : (buildDeviceBlock [⟨utf16 "phone-1", some (utf16 "微信"), none, some 0⟩]
      (utf16 "手机") true 60 3600).lines =
      [StatLine.deviceHeader (utf16 "手机"), StatLine.bucketLine 1 (utf16 "微信") 60 100] := by
    have hkeys : statsKeys [⟨utf16 "phone-1", some (utf16 "微信"), none, some 0⟩] true
        = [utf16 "微信"] := by decide
    simp only [buildDeviceBlock, hkeys]
    rw [if_neg (by decide)]
    have hcounts : appCounts [utf16 "微信"] = [(utf16 "微信", 1)] := by decide
    rw [hcounts]
    have hsort : sortDesc [(utf16 "微信", 1)] = [(utf16 "微信", 1)] := rfl
    rw [hsort]
    simp only [List.enum, List.enumFrom, List.map, List.length_cons, List.length_nil]
    norm_num
  have hmem : StatLine.bucketLine 1 (utf16 "微信") 60 100 ∈
      (buildDeviceBlock [⟨utf16 "phone-1", some (utf16 "微信"), none, some 0⟩]
        (utf16 "手机") true 60 3600).lines := by
    rw [hlines]; simp
  exact ⟨hmem,
    (daily_percentages_capped [⟨utf16 "phone-1", some (utf16 "微信"), none, some 0⟩]
      (utf16 "手机") true 60 3600 [] false).1 1 (utf16 "微信") 60 100 hmem⟩

/-- C8: a device kind with zero matching events contributes no lines and
zero covered seconds; the rendered today-stats lines are exactly the other
device's lines, and contain no desktop section header at all. -/
theorem empty_device_no_section (todayEvents : List Ev) (hidePc : Bool)
    (hb elapsed : Nat) (h : pcEventsOf todayEvents hidePc = []) :
    (buildDeviceBlock (pcEventsOf todayEvents hidePc) (utf16 "电脑") false hb elapsed).lines = [] ∧
    (buildDeviceBlock (pcEventsOf todayEvents hidePc) (utf16 "电脑") false hb elapsed).coveredSeconds = 0 ∧
    queryTodayLines todayEvents hidePc hb elapsed =
      (buildDeviceBlock (phoneEventsOf todayEvents) (utf16 "手机") true hb elapsed).lines ∧
    StatLine.deviceHeader (utf16 "电脑") ∉ queryTodayLines todayEvents hidePc hb elapsed := by
  have hpc : buildDeviceBlock (pcEventsOf todayEvents hidePc) (utf16 "电脑") false hb elapsed
      = ⟨[], 0, 0⟩ := by rw [h]; rfl
  have hq : queryTodayLines todayEvents hidePc hb elapsed =
      (buildDeviceBlock (phoneEventsOf todayEvents) (utf16 "手机") true hb elapsed).lines := by
    unfold queryTodayLines
    rw [hpc]
    simp
  refine ⟨by rw [hpc], by rw [hpc], hq, ?_⟩
  rw [hq]
  unfold buildDeviceBlock
  split
  · simp
  · intro hmem
    simp only [List.mem_cons] at hmem
    rcases hmem with h1 | h1
    · simp only [StatLine.deviceHeader.injEq] at h1
      exact absurd h1 (by decide)
    · rw [List.mem_map] at h1
      obtain ⟨p, -, heq⟩ := h1
      exact absurd heq (by simp)

theorem empty_device_no_section_witness :
    StatLine.deviceHeader (utf16 "电脑") ∉
      queryTodayLines [⟨utf16 "phone-1", some (utf16 "微信"), none, some 0⟩] false 60 3600 :=
  (empty_device_no_section [⟨utf16 "phone-1", some (utf16 "微信"), none, some 0⟩]
    false 60 3600 (by decide)).2.2.2

/-- Every string is a whitespace prefix, its trim, and a whitespace
suffix. -/
theorem trimList_decomp (s : List Nat) :
    ∃ w1 w2, (∀ c ∈ w1, isWsCU c = true) ∧ (∀ c ∈ w2, isWsCU c = true) ∧
      s = w1 ++ (trimList s ++ w2) := by
  refine ⟨s.takeWhile isWsCU, ((s.dropWhile isWsCU).reverse.takeWhile isWsCU).reverse,
    fun c hc => List.mem_takeWhile_imp hc,
    fun c hc => List.mem_takeWhile_imp (List.mem_reverse.mp hc), ?_⟩
  conv_lhs => rw [← List.takeWhile_append_dropWhile (p := isWsCU) (l := s)]
  congr 1
  rw [trimList, ← List.reverse_append, List.takeWhile_append_dropWhile,
    List.reverse_reverse]

/-- An infix with a non-whitespace first unit survives dropping a leading
whitespace unit. -/
theorem infix_cons_ws {e l : List Nat} {c : Nat}
    (hne : e ≠ []) (hhd : isWsCU (e.headD 0) = false) (hws : isWsCU c = true)
    (h : e <:+: c :: l) : e <:+: l := by
  obtain ⟨s, t, hst⟩ := h
  cases s with
  | nil =>
    cases e with
    | nil => exact absurd rfl hne
    | cons x xs =>
      simp only [List.nil_append, List.cons_append, List.cons.injEq] at hst
      simp only [List.headD_cons] at hhd
      rw [hst.1, hws] at hhd
      exact absurd hhd (by simp)
  | cons a s' =>
    simp only [List.cons_append, List.cons.injEq] at hst
    exact ⟨s', t, hst.2⟩

/-- An infix with a non-whitespace first unit survives dropping a leading
all-whitespace block. -/
theorem infix_drop_ws_left {e A : List Nat} (w : List Nat)
    (hw : ∀ c ∈ w, isWsCU c = true) (hne : e ≠ []) (hhd : isWsCU (e.headD 0) = false)
    (h : e <:+: w ++ A) : e <:+: A := by
  induction w with
  | nil => simpa using h
  | cons c w' ih =>
    apply ih (fun d hd => hw d (List.mem_cons_of_mem c hd))
    apply infix_cons_ws hne hhd (hw c (List.mem_cons_self c w'))
    simpa using h

/-- An infix with a non-whitespace last unit survives dropping a trailing
all-whitespace block. -/
theorem infix_drop_ws_right {e A : List Nat} (w : List Nat)
    (hw : ∀ c ∈ w, isWsCU c = true) (hne : e ≠ []) (hlast : isWsCU (e.getLastD 0) = false)
    (h : e <:+: A ++ w) : e <:+: A := by
  rw [← List.reverse_infix]
  apply infix_drop_ws_left w.reverse
  · intro c hc; exact hw c (List.mem_reverse.mp hc)
  · simpa using hne
  · rw [List.headD_eq_head?_getD, List.head?_reverse, ← List.getLastD_eq_getLast?]
    exact hlast
  · rw [← List.reverse_append]
    exact List.IsInfix.reverse h

/-- The noise entries are non-empty and begin and end with non-whitespace
units. -/
theorem noise_entries_wf :
    ∀ e ∈ NOISE_APPS, e ≠ [] ∧ isWsCU (e.headD 0) = false ∧
      isWsCU (e.getLastD 0) = false := by decide

/-- No noise entry is an infix of a different noise entry. -/
theorem noise_no_strict_sub :
    ∀ a ∈ NOISE_APPS, ∀ b ∈ NOISE_APPS, b <:+: a → b = a := by decide

theorem screen_off_mem_noise : ∀ a ∈ SCREEN_OFF_APPS, a ∈ NOISE_APPS := by decide

/-- A string strictly containing a noise entry its trim differs from cannot
trim to any noise entry. -/
theorem not_trim_mem_of_strict_sub {s e : List Nat} (heN : e ∈ NOISE_APPS)
    (hinf : e <:+: s) (hts : trimList s ≠ e) :
    trimList s ∉ NOISE_APPS := by
  intro hA
  obtain ⟨w1, w2, hw1, hw2, hdecomp⟩ := trimList_decomp s
  rw [hdecomp] at hinf
  have hwf := noise_entries_wf e heN
  have h1 : e <:+: trimList s ++ w2 := infix_drop_ws_left w1 hw1 hwf.1 hwf.2.1 hinf
  have h2 : e <:+: trimList s := infix_drop_ws_right w2 hw2 hwf.1 hwf.2.2 h1
  exact hts (noise_no_strict_sub (trimList s) hA e heN h2).symm

/-- C6: noise/screen-off classification is exact match of the trimmed name,
never substring containment: an app name that strictly contains a noise
entry without being equal to it after trimming is classified neither Noise
nor ScreenOff. -/
theorem noise_match_is_exact (s : List Nat)
    (h : ∃ e ∈ NOISE_APPS, e <:+: s ∧ e ≠ s ∧ trimList s ≠ e) :
    isNoiseApp s = false ∧ isScreenOffApp s = false := by
  obtain ⟨e, heN, hinf, hne_s, hts⟩ := h
  have hnotmem := not_trim_mem_of_strict_sub heN hinf hts
  constructor
  · by_contra hcon
    rw [Bool.not_eq_false, isNoiseApp, List.any_eq_true] at hcon
    obtain ⟨A, hA, hdec⟩ := hcon
    rw [decide_eq_true_iff] at hdec
    exact hnotmem (hdec ▸ hA)
  · by_contra hcon
    rw [Bool.not_eq_false, isScreenOffApp, List.any_eq_true] at hcon
    obtain ⟨A, hA, hdec⟩ := hcon
    rw [decide_eq_true_iff] at hdec
    exact hnotmem (hdec ▸ screen_off_mem_noise A hA)

theorem noise_match_is_exact_witness :
    isNoiseApp (utf16 "X系统 UI") = false ∧ isScreenOffApp (utf16 "X系统 UI") = false :=
  noise_match_is_exact (utf16 "X系统 UI")
    ⟨utf16 "系统 UI", by decide, by decide, by decide, by decide⟩

/-- A non-empty suffix fixes the last element. -/
theorem getLast?_of_suffix {a b : List Nat} (h : a <:+ b) (hne : a ≠ []) :
    b.getLast? = a.getLast? := by
  obtain ⟨t, ht⟩ := h
  rw [← ht]
  exact List.getLast?_append_of_ne_nil t hne

theorem joinNl_ne_nil {last : List Nat} (xs : List (List Nat)) (h : last ≠ []) :
    joinNl (xs ++ [last]) ≠ [] := by
  induction xs with
  | nil => simpa [joinNl] using h
  | cons x xs ih =>
    have h1 : joinNl ((x :: xs) ++ [last]) = x ++ nl ++ joinNl (xs ++ [last]) := by
      cases xs <;> simp [joinNl]
    rw [h1]
    simp [nl]

theorem getLast?_joinNl_concat {last : List Nat} (xs : List (List Nat)) (h : last ≠ []) :
    (joinNl (xs ++ [last])).getLast? = last.getLast? := by
  induction xs with
  | nil => simp [joinNl]
  | cons x xs ih =>
    have h1 : joinNl ((x :: xs) ++ [last]) = x ++ nl ++ joinNl (xs ++ [last]) := by
      cases xs <;> simp [joinNl]
    rw [h1, List.getLast?_append_of_ne_nil _ (joinNl_ne_nil xs h)]
    exact ih

/-- The source-label tail of the PC block ends in `'C'` (code unit 67). -/
theorem pc_tail_getLast (nm : List Nat) :
    (utf16 "来自：" ++ nm ++ utf16 " の PC").getLast? = some 67 := by
  rw [List.getLast?_append_of_ne_nil _ (by decide : utf16 " の PC" ≠ [])]
  decide

theorem pc_tail_ne_nil (nm : List Nat) :
    utf16 "来自：" ++ nm ++ utf16 " の PC" ≠ [] := by
  intro h0
  have := pc_tail_getLast nm
  rw [h0] at this
  simp at this

theorem joinNl_tail3 (a b nm : List Nat) :
    (joinNl [a, b, utf16 "来自：" ++ nm ++ utf16 " の PC"]).getLast? = some 67 ∧
    joinNl [a, b, utf16 "来自：" ++ nm ++ utf16 " の PC"] ≠ [] :=
  ⟨(getLast?_joinNl_concat [a, b] (pc_tail_ne_nil nm)).trans (pc_tail_getLast nm),
   joinNl_ne_nil [a, b] (pc_tail_ne_nil nm)⟩

theorem joinNl_tail5 (a b c d nm : List Nat) :
    (joinNl [a, b, c, d, utf16 "来自：" ++ nm ++ utf16 " の PC"]).getLast? = some 67 ∧
    joinNl [a, b, c, d, utf16 "来自：" ++ nm ++ utf16 " の PC"] ≠ [] :=
  ⟨(getLast?_joinNl_concat [a, b, c, d] (pc_tail_ne_nil nm)).trans (pc_tail_getLast nm),
   joinNl_ne_nil [a, b, c, d] (pc_tail_ne_nil nm)⟩

/-- When the desktop block is shown, a person block always ends with the
`来自：… の PC` label, whose last unit is `'C'`. -/
theorem formatPersonBlock_getLast (name : List Nat) (phoneData pcData : Option Ev)
    (ft : Ev → List Nat) :
    (formatPersonBlock name phoneData pcData false ft).getLast? = some 67 := by
  simp only [formatPersonBlock]
  rw [if_neg (by simp)]
  cases pcData with
  | none =>
    rw [List.getLast?_append_of_ne_nil]
    · exact (joinNl_tail3 _ _ name).1
    · exact (joinNl_tail3 _ _ name).2
  | some pc =>
    rw [List.getLast?_append_of_ne_nil]
    · exact (joinNl_tail5 _ _ _ _ name).1
    · exact (joinNl_tail5 _ _ _ _ name).2

/-- C9: for 雨核, when the rendering is not the asleep line and the phone
event contains the keyword `范式：起源` (substring containment), the
advisory line is appended once at the very end of the whole report; when the
phone event is absent or does not contain the keyword, the advisory line is
not a suffix of the message at all. -/
theorem raincore_zhiba_suffix (events : List Ev) (now : Int) (ft : Ev → List Nat) :
    (events ≠ [] →
      isAsleepCondition (currentPhoneEvent events)
        (currentPcEvent (utf16 "雨核") events) now = false →
      eventContainsKeyword (currentPhoneEvent events) RAINCORE_ZHIBA_KEYWORD = true →
      formatMessageByPerson (utf16 "雨核") events now ft =
        (utf16 "【雨核】\n" ++
          formatPersonBlock (utf16 "雨核") (currentPhoneEvent events)
            (currentPcEvent (utf16 "雨核") events) false ft) ++ zhibaSuffix) ∧
    ((currentPhoneEvent events = none ∨
        eventContainsKeyword (currentPhoneEvent events) RAINCORE_ZHIBA_KEYWORD = false) →
      ¬ zhibaSuffix <:+ formatMessageByPerson (utf16 "雨核") events now ft) := by
  have hnp : ¬ (utf16 "雨核" = utf16 "皮梦") := by decide
  have hhide : (decide (utf16 "雨核" ∈ HIDE_PC_NAMES)) = false := by decide
  have hhdr : utf16 "【" ++ utf16 "雨核" ++ utf16 "】\n" = utf16 "【雨核】\n" := by decide
  constructor
  · intro hev hasleep hkw
    simp only [formatMessageByPerson]
    rw [if_neg hev, if_neg hnp, if_neg (by rw [hasleep]; simp),
      if_pos (show _ ∧ _ from ⟨by trivial, hkw⟩), hhide, hhdr]
  · intro hneg hsuf
    have hkwF : eventContainsKeyword (currentPhoneEvent events) RAINCORE_ZHIBA_KEYWORD = false := by
      rcases hneg with h | h
      · rw [h]; rfl
      · exact h
    have hlast := getLast?_of_suffix hsuf (by decide)
    have hsufLast : zhibaSuffix.getLast? = some 0x4ED6 := by decide
    rw [hsufLast] at hlast
    by_cases hev : events = []
    · have hm : formatMessageByPerson (utf16 "雨核") events now ft =
          utf16 "【" ++ utf16 "雨核" ++ utf16 "】\n  暂无记录\n" := by
        simp only [formatMessageByPerson]
        rw [if_pos hev]
      rw [hm] at hlast
      have : (utf16 "【" ++ utf16 "雨核" ++ utf16 "】\n  暂无记录\n").getLast? = some 10 := by decide
      rw [this] at hlast
      simp at hlast
    · by_cases hasleep : isAsleepCondition (currentPhoneEvent events)
          (currentPcEvent (utf16 "雨核") events) now = true
      · have hm : formatMessageByPerson (utf16 "雨核") events now ft =
            utf16 "【" ++ utf16 "雨核" ++ utf16 "】\n  " ++ utf16 "雨核" ++
              utf16 "好像睡着了呢\n" := by
          simp only [formatMessageByPerson]
          rw [if_neg hev, if_neg hnp, if_pos hasleep]
        rw [hm] at hlast
        have : (utf16 "【" ++ utf16 "雨核" ++ utf16 "】\n  " ++ utf16 "雨核" ++
            utf16 "好像睡着了呢\n").getLast? = some 10 := by decide
        rw [this] at hlast
        simp at hlast
      · have hm : formatMessageByPerson (utf16 "雨核") events now ft =
            utf16 "【" ++ utf16 "雨核" ++ utf16 "】\n" ++
              formatPersonBlock (utf16 "雨核") (currentPhoneEvent events)
                (currentPcEvent (utf16 "雨核") events) false ft := by
          simp only [formatMessageByPerson]
          rw [if_neg hev, if_neg hnp, if_neg hasleep, hhide]
          rw [if_neg (by rw [hkwF]; simp)]
        rw [hm] at hlast
        rw [List.getLast?_append_of_ne_nil _ (by
          intro h0
          have := formatPersonBlock_getLast (utf16 "雨核") (currentPhoneEvent events)
            (currentPcEvent (utf16 "雨核") events) ft
          rw [h0] at this
          simp at this)] at hlast
        rw [formatPersonBlock_getLast] at hlast
        simp at hlast

theorem raincore_zhiba_suffix_witness :
    formatMessageByPerson (utf16 "雨核")
        [⟨utf16 "xiaomi-phone", some (utf16 "范式：起源"), none, some 0⟩] 0 (fun _ => []) =
      (utf16 "【雨核】\n" ++
        formatPersonBlock (utf16 "雨核")
          (currentPhoneEvent [⟨utf16 "xiaomi-phone", some (utf16 "范式：起源"), none, some 0⟩])
          (currentPcEvent (utf16 "雨核")
            [⟨utf16 "xiaomi-phone", some (utf16 "范式：起源"), none, some 0⟩]) false
          (fun _ => [])) ++ zhibaSuffix :=
  (raincore_zhiba_suffix
      [⟨utf16 "xiaomi-phone", some (utf16 "范式：起源"), none, some 0⟩] 0 (fun _ => [])).1
    (by decide) (by decide) (by decide)

end Spy
